import Mathlib

/-!
Verification of the Exclusive Drop waitlist server
(`src/exclusive-drop/server/src/index.ts`, with the alternate server
variant in `src/unnamed/part_003`).

The store (a Mongo collection of `Order` documents) is embedded as a
`List Order` in insertion order.  Each HTTP handler becomes a pure
function from the request data and the store state to a response value
and the new store state; fallible store operations are given explicit
boolean failure flags.  Timestamps are natural numbers.
-/

namespace ExclusiveDrop

/-- The capacity constant: `const LIMIT = 5` in the status route, and the
literal `5` in the buy route. -/
def LIMIT : Nat := 5

/-- A registration record, the mongoose `Order` model: an email and a
creation timestamp (`createdAt: { type: Date, default: Date.now }`). -/
structure Order where
  email : String
  createdAt : Nat
deriving DecidableEq, Repr

/-- The store: the collection of `Order` documents, in insertion order. -/
abbrev Store := List Order

/-- The count query `Order.countDocuments()`: the number of records in the store. -/
def countDocuments (db : Store) : Nat := db.length

/-! ### Email validation (`BuySchema`)

The zod schema is
`z.string().regex(/^[\w-\.]+@([\w-]+\.)+[\w-]{2,4}$/).min(5).max(100)`.
The regex is embedded character class by character class.  -/

/-- The regex class `\w` (ASCII word character). -/
def isWordChar (c : Char) : Bool :=
  c.isAlpha || c.isDigit || c == '_'

/-- The regex class `[\w-]` used for domain labels. -/
def labelChar (c : Char) : Bool :=
  isWordChar c || c == '-'

/-- The regex class `[\w-\.]` used for the local part. -/
def localChar (c : Char) : Bool :=
  isWordChar c || c == '-' || c == '.'

/-- Match of the trailing `[\w-]{2,4}` piece of the regex. -/
def finMatch (l : List Char) : Bool :=
  decide (2 ≤ l.length) && decide (l.length ≤ 4) && l.all labelChar

/-- Fuel-based matcher for the domain part `([\w-]+\.)+[\w-]{2,4}` of the
regex.  Because `[\w-]` excludes the dot, every group `[\w-]+\.` of a match
is forced to be the maximal run of label characters up to the next dot,
so the matcher peels one `[\w-]+\.` group and then tries either the final
`[\w-]{2,4}` piece or further groups. -/
def domainMatchF : Nat → List Char → Bool
  | 0, _ => false
  | n + 1, l =>
    let rest := l.dropWhile labelChar
    !(l.takeWhile labelChar).isEmpty && (rest.head? == some '.') &&
      (finMatch rest.tail || domainMatchF n rest.tail)

/-- Match of the domain part `([\w-]+\.)+[\w-]{2,4}` of the regex. -/
def domainMatch (l : List Char) : Bool :=
  domainMatchF (l.length + 1) l

/-- Match of the full anchored regex `/^[\w-\.]+@([\w-]+\.)+[\w-]{2,4}$/`.
The local part and the domain part both exclude `@`, so a match splits
the string at its unique `@`. -/
def emailRegexMatch (s : String) : Bool :=
  let l := s.toList
  let loc := l.takeWhile fun c => !(c == '@')
  let rest := l.dropWhile fun c => !(c == '@')
  !loc.isEmpty && (rest.head? == some '@') && loc.all localChar &&
    domainMatch rest.tail

/-- The full `BuySchema` string checks: regex, `.min(5)`, `.max(100)`. -/
def emailValid (s : String) : Bool :=
  emailRegexMatch s && decide (5 ≤ s.length) && decide (s.length ≤ 100)

/-- The call `BuySchema.safeParse(req.body)`: the body's `email` field is `none`
when missing or not a string.  On failure the handler reports
`errors[0].message`, the message of the first failing check in
declaration order (regex, then min, then max). -/
def buySchemaSafeParse : Option String → Except String String
  | none => .error "Required"
  | some s =>
    if !emailRegexMatch s then .error "Invalid email format"
    else if s.length < 5 then .error "Email too short"
    else if 100 < s.length then .error "Email too long"
    else .ok s

/-! ### Status route -/

/-- The JSON body of `GET /api/status`. -/
structure StatusResp where
  remaining : Int
  soldOut : Bool
deriving DecidableEq, Repr

/-- The inventory policy of the status route:
`remaining: Math.max(0, LIMIT - count), soldOut: count >= LIMIT`. -/
def statusOf (count : Nat) : StatusResp :=
  { remaining := max 0 ((LIMIT : Int) - count), soldOut := decide (count ≥ LIMIT) }

/-- Result of `GET /api/status` (the catch branch answers 500). -/
inductive StatusResult where
  | ok (resp : StatusResp)
  | serverError
deriving DecidableEq, Repr

/-- HTTP status code of a status-route result. -/
def StatusResult.httpStatus : StatusResult → Nat
  | .ok _ => 200
  | .serverError => 500

/-- The route `GET /api/status`: counts the documents and applies the inventory
policy; a failing count produces the 500 branch. -/
def statusHandler (countFail : Bool) (db : Store) : StatusResult :=
  if countFail then .serverError else .ok (statusOf (countDocuments db))

/-! ### Orders route -/

/-- The query `Order.find().sort(createdAt: -1)`: all records, newest first.
Mongo's sort is stable, matching `List.mergeSort`. -/
def ordersHandler (db : Store) : List Order :=
  db.mergeSort fun a b => decide (b.createdAt ≤ a.createdAt)

/-- Result of `GET /api/orders` (the catch branch answers 500). -/
inductive OrdersResult where
  | ok (orders : List Order)
  | fetchError
deriving DecidableEq, Repr

/-- HTTP status code of an orders-route result. -/
def OrdersResult.httpStatus : OrdersResult → Nat
  | .ok _ => 200
  | .fetchError => 500

/-- The route `GET /api/orders` with its store-failure branch. -/
def ordersEndpoint (findFail : Bool) (db : Store) : OrdersResult :=
  if findFail then .fetchError else .ok (ordersHandler db)

/-! ### Buy route -/

/-- Result of `POST /api/buy`. -/
inductive BuyOutcome where
  | validationError (message : String)
  | soldOut
  | success
  | serverError
deriving DecidableEq, Repr

/-- HTTP status code of a buy-route result (400 / 400 / 200 / 500). -/
def BuyOutcome.httpStatus : BuyOutcome → Nat
  | .validationError _ => 400
  | .soldOut => 400
  | .success => 200
  | .serverError => 500

/-- The route `POST /api/buy`: safe-parse the body; then count the documents
(`countFail` models a failing count), refuse when `count >= 5`, and
otherwise save one new order (`saveFail` models a failing save). -/
def buyHandler (body : Option String) (now : Nat) (countFail saveFail : Bool)
    (db : Store) : BuyOutcome × Store :=
  match buySchemaSafeParse body with
  | .error msg => (.validationError msg, db)
  | .ok email =>
    if countFail then (.serverError, db)
    else if countDocuments db ≥ LIMIT then (.soldOut, db)
    else if saveFail then (.serverError, db)
    else (.success, db ++ [{ email := email, createdAt := now }])

/-! ### Reset route -/

/-- Result of `POST /api/reset` in `index.ts`.  That handler has no
try/catch: when `deleteMany` rejects, the rejection escapes the async
handler and no response is sent at all. -/
inductive ResetOutcome where
  | cleared
  | unhandledRejection
deriving DecidableEq, Repr

/-- HTTP status code actually sent by the `index.ts` reset route:
none at all when the store operation rejects. -/
def ResetOutcome.sentStatus : ResetOutcome → Option Nat
  | .cleared => some 200
  | .unhandledRejection => none

/-- The route `POST /api/reset` in `index.ts`: `await Order.deleteMany(...)` with no
try/catch around it. -/
def resetHandler (deleteFail : Bool) (db : Store) : ResetOutcome × Store :=
  if deleteFail then (.unhandledRejection, db) else (.cleared, [])

/-- Result of `POST /api/reset` in the alternate server `part_003`,
whose handler does wrap the delete in try/catch and answers 500. -/
inductive ResetAltOutcome where
  | cleared
  | resetFailed
deriving DecidableEq, Repr

/-- HTTP status code of the alternate reset route. -/
def ResetAltOutcome.httpStatus : ResetAltOutcome → Nat
  | .cleared => 200
  | .resetFailed => 500

/-- The route `POST /api/reset` in `part_003`: try/catch around the delete. -/
def resetHandlerAlt (deleteFail : Bool) (db : Store) : ResetAltOutcome × Store :=
  if deleteFail then (.resetFailed, db) else (.cleared, [])

/-! ### Sequential runs and the concurrency model -/

/-- The record a buy with this email and timestamp inserts. -/
def mkOrder (p : String × Nat) : Order :=
  { email := p.1, createdAt := p.2 }

/-- Run a sequence of buy requests (email, timestamp) one after the
other, collecting the outcomes and the final store. -/
def runBuys : List (String × Nat) → Store → List BuyOutcome × Store
  | [], db => ([], db)
  | p :: rest, db =>
    let r := buyHandler (some p.1) p.2 false false db
    let rr := runBuys rest r.2
    (r.1 :: rr.1, rr.2)

/-- Progress of one in-flight buy request through its two store
operations: it has not yet read the count, it has read a count and not
yet acted on it, or it has finished (recording whether it inserted). -/
inductive ReqPhase where
  | start
  | decided (count : Nat)
  | finished (inserted : Bool)
deriving DecidableEq, Repr

/-- One atomic store operation of an in-flight buy request, following
the buy route's logic: first `countDocuments`, then either the sold-out
refusal or the insertion, decided on the count read earlier. -/
def buyStoreStep (email : String) (now : Nat) : ReqPhase → Store → ReqPhase × Store
  | .start, db => (.decided (countDocuments db), db)
  | .decided c, db =>
    if c ≥ LIMIT then (.finished false, db)
    else (.finished true, db ++ [{ email := email, createdAt := now }])
  | .finished b, db => (.finished b, db)

/-- Joint state of two concurrent buy requests and the shared store. -/
structure ConcState where
  phase1 : ReqPhase
  phase2 : ReqPhase
  db : Store
deriving DecidableEq, Repr

/-- Which of the two concurrent requests takes the next step. -/
inductive Tid where
  | req1
  | req2
deriving DecidableEq, Repr

/-- One scheduler step: the chosen request performs its next atomic
store operation on the shared store. -/
def concStep (e1 e2 : String) (t1 t2 : Nat) (s : ConcState) : Tid → ConcState
  | .req1 =>
    let r := buyStoreStep e1 t1 s.phase1 s.db
    { s with phase1 := r.1, db := r.2 }
  | .req2 =>
    let r := buyStoreStep e2 t2 s.phase2 s.db
    { s with phase2 := r.1, db := r.2 }

/-- Run a whole interleaving of the two requests' store operations. -/
def runSchedule (e1 e2 : String) (t1 t2 : Nat) : List Tid → ConcState → ConcState
  | [], s => s
  | tid :: rest, s => runSchedule e1 e2 t1 t2 rest (concStep e1 e2 t1 t2 s tid)

/-- The interleaving in which both requests read the count before either
writes. -/
def bothReadThenWrite (e1 e2 : String) (t1 t2 : Nat) (db : Store) : ConcState :=
  runSchedule e1 e2 t1 t2 [.req1, .req2, .req1, .req2]
    { phase1 := .start, phase2 := .start, db := db }

/-! ### Specification-side predicates -/

/-- Declarative reading of the domain part of the validation pattern:
one or more labels, each a nonempty run of word characters or hyphens
followed by a dot, then a final label of 2 to 4 word characters or
hyphens. -/
def DomainShape (l : List Char) : Prop :=
  ∃ (labels : List (List Char)) (tld : List Char),
    l = (labels.map fun lb => lb ++ ['.']).flatten ++ tld ∧
    labels ≠ [] ∧
    (∀ lb ∈ labels, lb ≠ [] ∧ ∀ c ∈ lb, labelChar c = true) ∧
    2 ≤ tld.length ∧ tld.length ≤ 4 ∧ (∀ c ∈ tld, labelChar c = true)

/-- Declarative reading of the final `[\w-]{2,4}` label alone. -/
def FinShape (l : List Char) : Prop :=
  2 ≤ l.length ∧ l.length ≤ 4 ∧ (∀ c ∈ l, labelChar c = true)

/-- Declarative reading of the accepted email strings: length between 5
and 100, of the form `local@domain` with a nonempty local part of word
characters, hyphens or dots, and a domain of the shape above. -/
def EmailShape (s : String) : Prop :=
  5 ≤ s.length ∧ s.length ≤ 100 ∧
  ∃ (loc dom : List Char),
    s.toList = loc ++ '@' :: dom ∧ loc ≠ [] ∧
    (∀ c ∈ loc, localChar c = true) ∧ DomainShape dom

/-- The final domain label of an address: its maximal suffix free of
dots and at-signs. -/
def finalDomainLabel (s : String) : List Char :=
  (s.toList.reverse.takeWhile fun c => !(c == '.') && !(c == '@')).reverse

/-- A sample pre-existing registration. -/
def sampleOrder (k : Nat) : Order :=
  { email := "x@y.com", createdAt := k }

/-- A store holding `n` sample registrations. -/
def dbOf (n : Nat) : Store :=
  (List.range n).map sampleOrder

/-! ### Helper lemmas -/

theorem buySchemaSafeParse_eq_ok_iff (b : Option String) (e : String) :
    buySchemaSafeParse b = .ok e ↔ b = some e ∧ emailValid e = true := by
  cases b with
  | none => simp [buySchemaSafeParse]
  | some s =>
    unfold buySchemaSafeParse emailValid
    cases hr : emailRegexMatch s with
    | false =>
      simp [hr]
      intro he hre
      subst he
      exact absurd hre (by simp [hr])
    | true =>
      by_cases h5 : s.length < 5
      · simp [hr, h5]
        intro he
        subst he
        omega
      · by_cases h100 : 100 < s.length
        · simp [hr, h5, h100]
          intro he
          subst he
          omega
        · simp [hr, h5, h100]
          intro he
          subst he
          simp [hr]
          omega

theorem buySchemaSafeParse_cases (b : Option String) :
    (∃ e, buySchemaSafeParse b = .ok e ∧ b = some e ∧ emailValid e = true) ∨
    (∃ m, buySchemaSafeParse b = .error m) := by
  cases h : buySchemaSafeParse b with
  | error m => exact .inr ⟨m, rfl⟩
  | ok e => exact .inl ⟨e, rfl, (buySchemaSafeParse_eq_ok_iff b e).1 h⟩

theorem buySchemaSafeParse_ok_of_valid (s : String) (h : emailValid s = true) :
    buySchemaSafeParse (some s) = .ok s :=
  (buySchemaSafeParse_eq_ok_iff (some s) s).2 ⟨rfl, h⟩

theorem buySchemaSafeParse_err_of_invalid (s : String) (h : emailValid s = false) :
    ∃ m, buySchemaSafeParse (some s) = .error m := by
  rcases buySchemaSafeParse_cases (some s) with ⟨e, _, hbody, hval⟩ | he
  · cases hbody
    rw [h] at hval
    cases hval
  · exact he

theorem labelChar_dot_false : labelChar '.' = false := by decide

theorem localChar_at_false : localChar '@' = false := by decide

theorem labelChar_bang_at {c : Char} (h : localChar c = true) :
    (!(c == '@')) = true := by
  by_cases hc : c = '@'
  · subst hc
    exact absurd h (by decide)
  · simp [hc]

theorem span_at_dot (lb r : List Char) (h : ∀ c ∈ lb, labelChar c = true) :
    (lb ++ '.' :: r).takeWhile labelChar = lb ∧
    (lb ++ '.' :: r).dropWhile labelChar = '.' :: r := by
  constructor
  · rw [List.takeWhile_append_of_pos h]
    simp [List.takeWhile_cons, labelChar_dot_false]
  · rw [List.dropWhile_append_of_pos h]
    simp [List.dropWhile_cons, labelChar_dot_false]

theorem span_at_atsign (loc dom : List Char) (h : ∀ c ∈ loc, localChar c = true) :
    ((loc ++ '@' :: dom).takeWhile fun c => !(c == '@')) = loc ∧
    ((loc ++ '@' :: dom).dropWhile fun c => !(c == '@')) = '@' :: dom := by
  have h' : ∀ c ∈ loc, (!(c == '@')) = true := fun c hc => labelChar_bang_at (h c hc)
  constructor
  · rw [List.takeWhile_append_of_pos h']
    simp [List.takeWhile_cons]
  · rw [List.dropWhile_append_of_pos h']
    simp [List.dropWhile_cons]

theorem domainShape_decomp (l : List Char) :
    DomainShape l ↔
      ∃ (lb r : List Char), l = lb ++ '.' :: r ∧ lb ≠ [] ∧
        (∀ c ∈ lb, labelChar c = true) ∧ (FinShape r ∨ DomainShape r) := by
  constructor
  · rintro ⟨labels, tld, heq, hne, hlab, h2, h4, htld⟩
    cases labels with
    | nil => exact absurd rfl hne
    | cons lb0 rest =>
      refine ⟨lb0, (rest.map fun lb => lb ++ ['.']).flatten ++ tld, ?_,
        (hlab lb0 (List.mem_cons_self _ _)).1,
        (hlab lb0 (List.mem_cons_self _ _)).2, ?_⟩
      · simp [heq]
      · cases rest with
        | nil => exact .inl ⟨h2, h4, htld⟩
        | cons lb1 rest' =>
          refine .inr ⟨lb1 :: rest', tld, rfl, List.cons_ne_nil _ _, ?_, h2, h4, htld⟩
          exact fun lb hm => hlab lb (List.mem_cons_of_mem _ hm)
  · rintro ⟨lb, r, heq, hne, hchars, hor⟩
    rcases hor with ⟨h2, h4, htld⟩ | ⟨labels, tld, heq', hne', hlab', h2, h4, htld⟩
    · refine ⟨[lb], r, ?_, by simp, ?_, h2, h4, htld⟩
      · simp [heq]
      · intro lb' hm
        rw [List.mem_singleton] at hm
        subst hm
        exact ⟨hne, hchars⟩
    · refine ⟨lb :: labels, tld, ?_, List.cons_ne_nil _ _, ?_, h2, h4, htld⟩
      · simp [heq, heq']
      · intro lb' hm
        rcases List.mem_cons.1 hm with hm | hm
        · subst hm
          exact ⟨hne, hchars⟩
        · exact hlab' lb' hm

theorem domainMatchF_iff (n : Nat) :
    ∀ l : List Char, l.length < n → (domainMatchF n l = true ↔ DomainShape l) := by
  induction n with
  | zero =>
    intro l hl
    exact absurd hl (Nat.not_lt_zero _)
  | succ n ih =>
    intro l hl
    constructor
    · intro h
      simp only [domainMatchF, Bool.and_eq_true, Bool.not_eq_true',
        beq_iff_eq] at h
      obtain ⟨⟨hne, hhead⟩, hor⟩ := h
      obtain ⟨r, hd⟩ := List.head?_eq_some_iff.1 hhead
      have heq : l = l.takeWhile labelChar ++ '.' :: r := by
        conv_lhs => rw [← List.takeWhile_append_dropWhile labelChar l]
        rw [hd]
      have htail : (l.dropWhile labelChar).tail = r := by rw [hd]; rfl
      have hlen : r.length < n := by
        have := congrArg List.length heq
        simp [List.length_append] at this
        omega
      rw [domainShape_decomp]
      refine ⟨l.takeWhile labelChar, r, heq, List.isEmpty_eq_false.1 hne,
        fun c hc => List.mem_takeWhile_imp hc, ?_⟩
      rw [htail, Bool.or_eq_true] at hor
      rcases hor with hfin | hrec
      · refine .inl ?_
        simp only [finMatch, Bool.and_eq_true, decide_eq_true_eq,
          List.all_eq_true] at hfin
        exact ⟨hfin.1.1, hfin.1.2, hfin.2⟩
      · exact .inr ((ih r hlen).1 hrec)
    · intro h
      rw [domainShape_decomp] at h
      obtain ⟨lb, r, heq, hne, hchars, hor⟩ := h
      obtain ⟨htake, hdrop⟩ := span_at_dot lb r hchars
      subst heq
      have hlen : r.length < n := by
        simp [List.length_append] at hl
        omega
      simp only [domainMatchF, htake, hdrop, Bool.and_eq_true, Bool.not_eq_true',
        beq_iff_eq, List.head?_cons, List.tail_cons, Bool.or_eq_true]
      refine ⟨⟨List.isEmpty_eq_false.2 hne, trivial⟩, ?_⟩
      rcases hor with ⟨h2, h4, htld⟩ | hds
      · refine .inl ?_
        simp only [finMatch, Bool.and_eq_true, decide_eq_true_eq,
          List.all_eq_true]
        exact ⟨⟨h2, h4⟩, htld⟩
      · exact .inr ((ih r hlen).2 hds)

theorem domainMatch_iff (l : List Char) : domainMatch l = true ↔ DomainShape l :=
  domainMatchF_iff (l.length + 1) l (Nat.lt_succ_self _)

theorem emailRegexMatch_iff (s : String) :
    emailRegexMatch s = true ↔
      ∃ (loc dom : List Char), s.toList = loc ++ '@' :: dom ∧ loc ≠ [] ∧
        (∀ c ∈ loc, localChar c = true) ∧ DomainShape dom := by
  constructor
  · intro h
    simp only [emailRegexMatch, Bool.and_eq_true, Bool.not_eq_true',
      beq_iff_eq, List.all_eq_true] at h
    obtain ⟨⟨⟨hne, hhead⟩, hloc⟩, hdom⟩ := h
    obtain ⟨dom, hd⟩ := List.head?_eq_some_iff.1 hhead
    have heq : s.toList =
        (s.toList.takeWhile fun c => !(c == '@')) ++ '@' :: dom := by
      conv_lhs => rw [← List.takeWhile_append_dropWhile (fun c => !(c == '@')) s.toList]
      rw [hd]
    have htail : ((s.toList.dropWhile fun c => !(c == '@'))).tail = dom := by
      rw [hd]; rfl
    rw [htail] at hdom
    exact ⟨_, dom, heq, List.isEmpty_eq_false.1 hne, hloc,
      (domainMatch_iff dom).1 hdom⟩
  · rintro ⟨loc, dom, heq, hne, hloc, hdom⟩
    obtain ⟨htake, hdrop⟩ := span_at_atsign loc dom hloc
    simp only [emailRegexMatch, heq, htake, hdrop, Bool.and_eq_true,
      Bool.not_eq_true', beq_iff_eq, List.head?_cons, List.tail_cons,
      List.all_eq_true]
    exact ⟨⟨⟨List.isEmpty_eq_false.2 hne, trivial⟩, hloc⟩, (domainMatch_iff dom).2 hdom⟩

theorem emailValid_iff_emailShape (s : String) :
    emailValid s = true ↔ EmailShape s := by
  unfold emailValid EmailShape
  simp only [Bool.and_eq_true, decide_eq_true_eq, emailRegexMatch_iff]
  constructor
  · rintro ⟨⟨hshape, h5⟩, h100⟩
    exact ⟨h5, h100, hshape⟩
  · rintro ⟨h5, h100, hshape⟩
    exact ⟨⟨hshape, h5⟩, h100⟩

theorem ordersHandler_perm (db : Store) : (ordersHandler db).Perm db :=
  List.mergeSort_perm db _

theorem ordersHandler_sorted (db : Store) :
    (ordersHandler db).Pairwise fun a b => b.createdAt ≤ a.createdAt := by
  have h := @List.sorted_mergeSort Order
    (fun a b => decide (b.createdAt ≤ a.createdAt))
    (fun a b c h1 h2 => by
      simp only [decide_eq_true_eq] at *
      exact le_trans h2 h1)
    (fun a b => by
      simp only [Bool.or_eq_true, decide_eq_true_eq]
      exact Nat.le_total b.createdAt a.createdAt)
    db
  exact h.imp fun hb => of_decide_eq_true hb

theorem runBuys_success (inputs : List (String × Nat)) :
    ∀ db : Store, (∀ p ∈ inputs, emailValid p.1 = true) →
      countDocuments db + inputs.length ≤ LIMIT →
      runBuys inputs db =
        (inputs.map fun _ => BuyOutcome.success, db ++ inputs.map mkOrder) := by
  induction inputs with
  | nil =>
    intro db _ _
    simp [runBuys]
  | cons p rest ih =>
    intro db hv hlen
    have hvp : emailValid p.1 = true := hv p (List.mem_cons_self _ _)
    have hok := buySchemaSafeParse_ok_of_valid p.1 hvp
    have hlt : ¬ countDocuments db ≥ LIMIT := by
      simp only [List.length_cons] at hlen
      omega
    have hstep : buyHandler (some p.1) p.2 false false db =
        (.success, db ++ [mkOrder p]) := by
      simp [buyHandler, hok, hlt, mkOrder]
    have hlen' : countDocuments (db ++ [mkOrder p]) + rest.length ≤ LIMIT := by
      simp only [countDocuments, List.length_append, List.length_singleton] at hlen ⊢
      simp only [List.length_cons] at hlen
      omega
    simp only [runBuys, hstep]
    rw [ih (db ++ [mkOrder p]) (fun q hq => hv q (List.mem_cons_of_mem _ hq)) hlen']
    simp

/-! ### Claims -/

/-- C1: for every non-negative registration count `c`, the status
operation returns `remaining = max 0 (5 - c)` and `soldOut = (c ≥ 5)`;
the computation is a total pure function of the count. -/
theorem c1_inventory_policy (c : Nat) :
    (statusOf c).remaining = max 0 (5 - (c : Int)) ∧
    ((statusOf c).soldOut = true ↔ c ≥ 5) ∧
    0 ≤ (statusOf c).remaining := by
  refine ⟨?_, ?_, ?_⟩
  · simp [statusOf, LIMIT]
  · simp [statusOf, LIMIT]
  · exact le_max_left _ _

/-- Witness for C1 at the concrete count 7. -/
theorem c1_inventory_policy_witness :
    (statusOf 7).remaining = max 0 (5 - (7 : Int)) ∧
    ((statusOf 7).soldOut = true ↔ 7 ≥ 5) :=
  ⟨(c1_inventory_policy 7).1, (c1_inventory_policy 7).2.1⟩

/-- C10: for every count, the status response satisfies
`soldOut ↔ remaining = 0` and `0 ≤ remaining ≤ 5`. -/
theorem c10_status_invariant (c : Nat) :
    ((statusOf c).soldOut = true ↔ (statusOf c).remaining = 0) ∧
    0 ≤ (statusOf c).remaining ∧ (statusOf c).remaining ≤ 5 := by
  refine ⟨?_, le_max_left _ _, ?_⟩
  · simp [statusOf, LIMIT]
  · simp [statusOf, LIMIT]

/-- Witness for C10 at the concrete count 3. -/
theorem c10_status_invariant_witness :
    ((statusOf 3).soldOut = true ↔ (statusOf 3).remaining = 0) :=
  (c10_status_invariant 3).1

/-- C2: from a store holding `LIMIT - 1` records, the interleaving in
which two buy requests both read the count before either writes makes
both requests insert, leaving `LIMIT + 1` records: the check-then-insert
read-modify-write is not atomic. -/
theorem c2_check_then_insert_race (e1 e2 : String) (t1 t2 : Nat) (db : Store)
    (h : countDocuments db = LIMIT - 1) :
    (bothReadThenWrite e1 e2 t1 t2 db).phase1 = .finished true ∧
    (bothReadThenWrite e1 e2 t1 t2 db).phase2 = .finished true ∧
    countDocuments (bothReadThenWrite e1 e2 t1 t2 db).db = LIMIT + 1 ∧
    LIMIT < countDocuments (bothReadThenWrite e1 e2 t1 t2 db).db := by
  have h4 : db.length = 4 := h
  simp [bothReadThenWrite, runSchedule, concStep, buyStoreStep, countDocuments,
    LIMIT, h4]

/-- Witness for C2: a concrete store with 4 records oversells to 6. -/
theorem c2_check_then_insert_race_witness :
    countDocuments (bothReadThenWrite "a@b.com" "c@d.com" 1 2 (dbOf 4)).db =
      LIMIT + 1 :=
  (c2_check_then_insert_race "a@b.com" "c@d.com" 1 2 (dbOf 4) (by decide)).2.2.1

/-- C3 counterexample: with 5 records in the store, a buy request whose
email is invalid is answered with the validation error, not with the
sold-out error, so the claim "returns a sold-out error regardless of
email validity" fails at this input. -/
theorem c3_counterexample :
    countDocuments (dbOf 5) = 5 ∧
    (buyHandler (some "not-an-email") 9 false false (dbOf 5)).1 ≠
      BuyOutcome.soldOut ∧
    (buyHandler (some "not-an-email") 9 false false (dbOf 5)).1 =
      BuyOutcome.validationError "Invalid email format" := by
  decide

/-- C3 (amended): when the store holds 5 records, a buy request never
inserts; a valid email is answered with the sold-out error (HTTP 400,
distinct from every validation error), an invalid one with a validation
error. -/
theorem c3_sold_out_no_insert (e : String) (t : Nat) (db : Store)
    (h : countDocuments db = 5) :
    (buyHandler (some e) t false false db).2 = db ∧
    (emailValid e = true →
      (buyHandler (some e) t false false db).1 = BuyOutcome.soldOut) ∧
    (emailValid e = false →
      ∃ m, (buyHandler (some e) t false false db).1 = .validationError m) ∧
    BuyOutcome.soldOut.httpStatus = 400 ∧
    (∀ m, BuyOutcome.soldOut ≠ BuyOutcome.validationError m) := by
  have hge : countDocuments db ≥ LIMIT := by rw [h]; exact le_refl _
  refine ⟨?_, ?_, ?_, rfl, ?_⟩
  · rcases buySchemaSafeParse_cases (some e) with ⟨e', hok, _, _⟩ | ⟨m, hm⟩
    · simp [buyHandler, hok, hge]
    · simp [buyHandler, hm]
  · intro hv
    simp [buyHandler, buySchemaSafeParse_ok_of_valid e hv, hge]
  · intro hv
    obtain ⟨m, hm⟩ := buySchemaSafeParse_err_of_invalid e hv
    exact ⟨m, by simp [buyHandler, hm]⟩
  · intro m hm
    cases hm

/-- Witness for C3 (amended) on a concrete full store. -/
theorem c3_sold_out_no_insert_witness :
    (buyHandler (some "a@b.com") 1 false false (dbOf 5)).2 = dbOf 5 ∧
    (buyHandler (some "a@b.com") 1 false false (dbOf 5)).1 =
      BuyOutcome.soldOut :=
  ⟨(c3_sold_out_no_insert "a@b.com" 1 (dbOf 5) (by decide)).1,
   (c3_sold_out_no_insert "a@b.com" 1 (dbOf 5) (by decide)).2.1 (by decide)⟩

/-- C4: an invalid email is rejected with a 400 validation error and the
store is left unchanged, whatever its state and whatever the store
failure flags. -/
theorem c4_invalid_email_rejected (s : String) (t : Nat) (cf sf : Bool)
    (db : Store) (h : emailValid s = false) :
    ∃ m, buyHandler (some s) t cf sf db = (.validationError m, db) ∧
      (BuyOutcome.validationError m).httpStatus = 400 := by
  obtain ⟨m, hm⟩ := buySchemaSafeParse_err_of_invalid s h
  exact ⟨m, by simp [buyHandler, hm], rfl⟩

/-- Witness for C4 at the concrete invalid email of the spec scenario. -/
theorem c4_invalid_email_rejected_witness :
    ∃ m, buyHandler (some "not-an-email") 0 false false (dbOf 2) =
      (.validationError m, dbOf 2) ∧
      (BuyOutcome.validationError m).httpStatus = 400 :=
  c4_invalid_email_rejected "not-an-email" 0 false false (dbOf 2) (by decide)

/-- C5: whenever a buy request succeeds it appends exactly one record,
built from the validated email and the request timestamp, and changes
nothing else; concretely, from the empty store, buying `a@b.com`
succeeds and the status becomes remaining 4, not sold out. -/
theorem c5_success_single_insert :
    (∀ (body : Option String) (t : Nat) (cf sf : Bool) (db : Store),
      (buyHandler body t cf sf db).1 = .success →
      ∃ e, body = some e ∧ emailValid e = true ∧ countDocuments db < LIMIT ∧
        (buyHandler body t cf sf db).2 = db ++ [mkOrder (e, t)]) ∧
    (buyHandler (some "a@b.com") 1 false false []).1 = .success ∧
    statusOf (countDocuments (buyHandler (some "a@b.com") 1 false false []).2) =
      { remaining := 4, soldOut := false } := by
  refine ⟨?_, by decide, by decide⟩
  intro body t cf sf db h
  rcases buySchemaSafeParse_cases body with ⟨e, hok, hbody, hval⟩ | ⟨m, hm⟩
  · simp only [buyHandler, hok] at h ⊢
    by_cases hcf : cf = true
    · simp [hcf] at h
    · by_cases hge : countDocuments db ≥ LIMIT
      · simp [hcf, hge] at h
      · by_cases hsf : sf = true
        · simp [hcf, hge, hsf] at h
        · refine ⟨e, hbody, hval, by omega, ?_⟩
          simp [hcf, hge, hsf, mkOrder]
  · simp [buyHandler, hm] at h

/-- Witness for C5: the first conjunct applied to the concrete success of
the spec scenario. -/
theorem c5_success_single_insert_witness :
    ∃ e, some "a@b.com" = some e ∧ emailValid e = true ∧
      countDocuments ([] : Store) < LIMIT ∧
      (buyHandler (some "a@b.com") 1 false false []).2 =
        [] ++ [mkOrder (e, 1)] :=
  c5_success_single_insert.1 (some "a@b.com") 1 false false [] (by decide)

/-- C6: the listing returns a permutation of all records in the store,
sorted by createdAt descending (no pagination or filtering); after N
successful buys (N ≤ 5) with valid distinct emails and increasing
timestamps into the empty store, every buy succeeds and the listing
holds exactly those N records in reverse chronological order. -/
theorem c6_listing_all_desc :
    (∀ db : Store, (ordersHandler db).Perm db ∧
      (ordersHandler db).Pairwise fun a b => b.createdAt ≤ a.createdAt) ∧
    (∀ inputs : List (String × Nat),
      (∀ p ∈ inputs, emailValid p.1 = true) →
      (inputs.map Prod.fst).Nodup →
      inputs.Pairwise (fun p q => p.2 < q.2) →
      inputs.length ≤ LIMIT →
      (runBuys inputs []).1 = (inputs.map fun _ => BuyOutcome.success) ∧
      (runBuys inputs []).2 = inputs.map mkOrder ∧
      (ordersHandler (runBuys inputs []).2).length = inputs.length ∧
      (ordersHandler (runBuys inputs []).2).Perm (inputs.map mkOrder) ∧
      (ordersHandler (runBuys inputs []).2).Pairwise
        fun a b => b.createdAt ≤ a.createdAt) := by
  refine ⟨fun db => ⟨ordersHandler_perm db, ordersHandler_sorted db⟩, ?_⟩
  intro inputs hv _ _ hlen
  have hrun := runBuys_success inputs [] hv (by simpa [countDocuments] using hlen)
  have h1 : (runBuys inputs []).1 = (inputs.map fun _ => BuyOutcome.success) := by
    rw [hrun]
  have h2 : (runBuys inputs []).2 = inputs.map mkOrder := by
    rw [hrun]
    simp
  refine ⟨h1, h2, ?_, ?_, ordersHandler_sorted _⟩
  · rw [h2, (ordersHandler_perm _).length_eq, List.length_map]
  · rw [h2]
    exact ordersHandler_perm _

/-- Witness for C6: two concrete successful buys from the empty store. -/
theorem c6_listing_all_desc_witness :
    (runBuys [("a@b.com", 1), ("c@d.com", 2)] []).2 =
      [mkOrder ("a@b.com", 1), mkOrder ("c@d.com", 2)] ∧
    (ordersHandler (runBuys [("a@b.com", 1), ("c@d.com", 2)] []).2).length = 2 ∧
    (ordersHandler (runBuys [("a@b.com", 1), ("c@d.com", 2)] []).2).Pairwise
      (fun a b => b.createdAt ≤ a.createdAt) :=
  ⟨(c6_listing_all_desc.2 [("a@b.com", 1), ("c@d.com", 2)] (by decide)
      (by decide) (by decide) (by decide)).2.1,
   (c6_listing_all_desc.2 [("a@b.com", 1), ("c@d.com", 2)] (by decide)
      (by decide) (by decide) (by decide)).2.2.1,
   (c6_listing_all_desc.2 [("a@b.com", 1), ("c@d.com", 2)] (by decide)
      (by decide) (by decide) (by decide)).2.2.2.2⟩

/-- C7: from every store state, a successful reset empties the store;
the status query then answers remaining 5, not sold out, and the listing
answers the empty collection. -/
theorem c7_reset_then_status (db : Store) :
    resetHandler false db = (.cleared, []) ∧
    statusHandler false (resetHandler false db).2 =
      .ok { remaining := 5, soldOut := false } ∧
    ordersEndpoint false (resetHandler false db).2 = .ok [] := by
  refine ⟨rfl, ?_, ?_⟩
  · simp [resetHandler, statusHandler, statusOf, countDocuments, LIMIT]
  · simp [resetHandler, ordersEndpoint, ordersHandler]

/-- Witness for C7 on a concrete nonempty store. -/
theorem c7_reset_then_status_witness :
    statusHandler false (resetHandler false (dbOf 3)).2 =
      .ok { remaining := 5, soldOut := false } ∧
    ordersEndpoint false (resetHandler false (dbOf 3)).2 = .ok [] :=
  ⟨(c7_reset_then_status (dbOf 3)).2.1, (c7_reset_then_status (dbOf 3)).2.2⟩

/-- C8: when the store operation fails, the status, orders and buy
routes answer 500 with the store unchanged, and the alternate server's
reset route answers 500 as well — but the `index.ts` reset route, which
has no try/catch, sends no response at all: the deletion failure escapes
as an unhandled rejection instead of the specified 500. -/
theorem c8_store_failure_behaviour (db : Store) :
    resetHandler true db = (.unhandledRejection, db) ∧
    ResetOutcome.sentStatus (resetHandler true db).1 = none ∧
    (statusHandler true db).httpStatus = 500 ∧
    (ordersEndpoint true db).httpStatus = 500 ∧
    (∀ (e : String) (t : Nat) (sf : Bool), emailValid e = true →
      buyHandler (some e) t true sf db = (.serverError, db)) ∧
    (∀ (e : String) (t : Nat), emailValid e = true →
      countDocuments db < LIMIT →
      buyHandler (some e) t false true db = (.serverError, db)) ∧
    resetHandlerAlt true db = (.resetFailed, db) ∧
    ResetAltOutcome.resetFailed.httpStatus = 500 := by
  refine ⟨rfl, rfl, rfl, rfl, ?_, ?_, rfl, rfl⟩
  · intro e t sf hv
    simp [buyHandler, buySchemaSafeParse_ok_of_valid e hv]
  · intro e t hv hlt
    simp [buyHandler, buySchemaSafeParse_ok_of_valid e hv, Nat.not_le_of_lt hlt]

/-- C9 counterexample: the server accepts `ab@cd.e-f`, a string of the
right length whose final domain label `e-f` is not made of word
characters (it contains a hyphen), so the validation does not accept
exactly the set of strings the claim describes. -/
theorem c9_counterexample :
    emailValid "ab@cd.e-f" = true ∧
    finalDomainLabel "ab@cd.e-f" = ['e', '-', 'f'] ∧
    (finalDomainLabel "ab@cd.e-f").all isWordChar = false := by
  decide

/-- C9 (amended): the validation accepts exactly the strings of length 5
to 100 of the shape local@domain, where the local part is a nonempty run
of word characters, hyphens or dots, the domain is one or more labels
each a nonempty run of word characters or hyphens followed by a dot, and
the final label is 2 to 4 word characters or hyphens; any other string,
and a missing or non-string email field, is rejected with a 400
validation error and no insertion — e.g. an address whose TLD is longer
than 4 characters. -/
theorem c9_validation_characterisation (s : String) (t : Nat) (db : Store) :
    (emailValid s = true ↔ EmailShape s) ∧
    (emailValid s = false →
      ∃ m, buyHandler (some s) t false false db = (.validationError m, db) ∧
        (BuyOutcome.validationError m).httpStatus = 400) ∧
    (∃ m, buyHandler none t false false db = (.validationError m, db) ∧
      (BuyOutcome.validationError m).httpStatus = 400) ∧
    emailValid "user@example.museum" = false := by
  refine ⟨emailValid_iff_emailShape s, ?_, ?_, by decide⟩
  · intro h
    obtain ⟨m, hm⟩ := buySchemaSafeParse_err_of_invalid s h
    exact ⟨m, by simp [buyHandler, hm], rfl⟩
  · exact ⟨"Required", by simp [buyHandler, buySchemaSafeParse], rfl⟩

/-- Witness for C9 (amended) on concrete accepted and rejected inputs. -/
theorem c9_validation_characterisation_witness :
    (emailValid "ab@cd.ef" = true ↔ EmailShape "ab@cd.ef") ∧
    (∃ m, buyHandler (some "not-an-email") 0 false false (dbOf 1) =
      (.validationError m, dbOf 1) ∧
      (BuyOutcome.validationError m).httpStatus = 400) :=
  ⟨(c9_validation_characterisation "ab@cd.ef" 0 (dbOf 1)).1,
   (c9_validation_characterisation "not-an-email" 0 (dbOf 1)).2.1 (by decide)⟩

/-- Witness for C8 on a concrete store and email. -/
theorem c8_store_failure_behaviour_witness :
    resetHandler true (dbOf 2) = (.unhandledRejection, dbOf 2) ∧
    buyHandler (some "a@b.com") 1 true false (dbOf 2) =
      (.serverError, dbOf 2) ∧
    buyHandler (some "a@b.com") 1 false true (dbOf 2) =
      (.serverError, dbOf 2) :=
  ⟨(c8_store_failure_behaviour (dbOf 2)).1,
   (c8_store_failure_behaviour (dbOf 2)).2.2.2.2.1 "a@b.com" 1 false (by decide),
   (c8_store_failure_behaviour (dbOf 2)).2.2.2.2.2.1 "a@b.com" 1 (by decide)
     (by decide)⟩

end ExclusiveDrop
